import Mathlib

/-!
# Verification of the userspace ELF loader

Shallow embedding of the loader sources (`parse_elf.rs`, `load_elf.rs`,
`stack_setup.rs`, `main.rs`) and proofs about them.

Modelling conventions:
* A file is a `List Nat` of its bytes.  Reading a single byte goes through
  `byteAt`, which reduces modulo 256, reflecting the `u8` element type of the
  Rust buffer.  Multi-byte fields are assembled little-endian exactly as the
  `repr(C, packed)` transmutes on x86-64 do.
* Machine integers are `Nat`s; every place where the Rust `usize`/`u64`/`u16`
  arithmetic can overflow or underflow is modelled by an explicit bound check
  that aborts (Rust debug builds panic there, and the surrounding asserts make
  any such situation fatal in release builds as well).
* A fatal abort (failed `assert!`, arithmetic overflow panic, slice-bounds
  panic, `expect` failure) is modelled by returning `none`.
* `mmap` is modelled by an oracle argument: a `MAP_FIXED` request that
  succeeds returns the requested address (the Linux contract), a hint-0
  request returns a kernel-chosen address supplied as the oracle.
-/

/-- Byte `i` of the file; out-of-range reads never happen on the paths we
prove about, and the `% 256` models the `u8` element type. -/
def byteAt (b : List Nat) (i : Nat) : Nat := b.getD i 0 % 256

/-- Little-endian read of `n` bytes starting at `off`, as done by the
`repr(C, packed)` transmutes in `parse_elf.rs` on a little-endian machine. -/
def readLE (b : List Nat) (off : Nat) : Nat → Nat
  | 0 => 0
  | n + 1 => byteAt b off + 256 * readLE b (off + 1) n

/-- Model of `u32::from_be` applied to a `u32`, i.e. a 4-byte byteswap. -/
def bswap32 (x : Nat) : Nat :=
  (x % 256) * 2 ^ 24 + (x / 2 ^ 8 % 256) * 2 ^ 16 +
    (x / 2 ^ 16 % 256) * 2 ^ 8 + x / 2 ^ 24 % 256

/-- The slice `b[i..j]` of the file, as a list of bytes. -/
def sliceBytes (b : List Nat) (i j : Nat) : List Nat := (b.drop i).take (j - i)

/-! ## UTF-8 validation

`String::from_utf8` accepts exactly the well-formed UTF-8 byte sequences
(no overlongs, no surrogates, max scalar 0x10FFFF).  We implement the
standard byte-class DFA. -/

/-- States of the UTF-8 acceptor: `start`, or "`k` continuation bytes still
expected", with dedicated states for the constrained second bytes after
`E0`, `ED`, `F0` and `F4`. -/
inductive Utf8State
  | start
  | one
  | two
  | three
  | afterE0
  | afterED
  | afterF0
  | afterF4
deriving DecidableEq

/-- One step of the UTF-8 acceptor; `none` on a malformed byte. -/
def utf8Step (s : Utf8State) (c : Nat) : Option Utf8State :=
  match s with
  | .start =>
      if c ≤ 0x7F then some .start
      else if 0xC2 ≤ c ∧ c ≤ 0xDF then some .one
      else if c = 0xE0 then some .afterE0
      else if (0xE1 ≤ c ∧ c ≤ 0xEC) ∨ c = 0xEE ∨ c = 0xEF then some .two
      else if c = 0xED then some .afterED
      else if c = 0xF0 then some .afterF0
      else if 0xF1 ≤ c ∧ c ≤ 0xF3 then some .three
      else if c = 0xF4 then some .afterF4
      else none
  | .one => if 0x80 ≤ c ∧ c ≤ 0xBF then some .start else none
  | .two => if 0x80 ≤ c ∧ c ≤ 0xBF then some .one else none
  | .three => if 0x80 ≤ c ∧ c ≤ 0xBF then some .two else none
  | .afterE0 => if 0xA0 ≤ c ∧ c ≤ 0xBF then some .one else none
  | .afterED => if 0x80 ≤ c ∧ c ≤ 0x9F then some .one else none
  | .afterF0 => if 0x90 ≤ c ∧ c ≤ 0xBF then some .two else none
  | .afterF4 => if 0x80 ≤ c ∧ c ≤ 0x8F then some .two else none

/-- Run the UTF-8 acceptor over a byte list. -/
def utf8Run : Utf8State → List Nat → Option Utf8State
  | s, [] => some s
  | s, c :: r => (utf8Step s c).bind (fun s' => utf8Run s' r)

/-- Whether a byte list is well-formed UTF-8 (what `String::from_utf8`
accepts). -/
def utf8Valid (l : List Nat) : Bool := utf8Run .start l = some .start

/-! ## Data model (`parse_elf.rs`, `load_elf.rs`) -/

/-- Model of `Elf64Phdr` (`parse_elf.rs`): a raw 56-byte program header. -/
structure Elf64Phdr where
  ptype  : Nat
  pflags : Nat
  offset : Nat
  vaddr  : Nat
  paddr  : Nat
  filesz : Nat
  memsz  : Nat
  align  : Nat
deriving DecidableEq, Repr

/-- Transmute of the 56 bytes at `off` into an `Elf64Phdr`
(packed little-endian layout). -/
def phdrAt (b : List Nat) (off : Nat) : Elf64Phdr where
  ptype  := readLE b off 4
  pflags := readLE b (off + 4) 4
  offset := readLE b (off + 8) 8
  vaddr  := readLE b (off + 16) 8
  paddr  := readLE b (off + 24) 8
  filesz := readLE b (off + 32) 8
  memsz  := readLE b (off + 40) 8
  align  := readLE b (off + 48) 8

/-- The `ProtFlags` subset used by the loader (`PROT_READ/WRITE/EXEC`). -/
structure ProtFlags where
  read  : Bool
  write : Bool
  exec  : Bool
deriving DecidableEq, Repr

/-- Model of `ElfSegment::get_prot_flags_from_progam_flags` (`load_elf.rs`):
decode `PF_X=1`, `PF_W=2`, `PF_R=4` from the header flags. -/
def get_prot_flags_from_progam_flags (program_flags : Nat) : ProtFlags where
  read  := program_flags &&& 4 ≠ 0
  write := program_flags &&& 2 ≠ 0
  exec  := program_flags &&& 1 ≠ 0

/-- Model of `ElfSegment` (`load_elf.rs`): a `PT_LOAD` segment plus its file-backed
data. -/
structure ElfSegment where
  virt_addr : Nat
  memsize   : Nat
  offset    : Nat
  filesize  : Nat
  alignment : Nat
  data      : List Nat
  prot      : ProtFlags
deriving DecidableEq, Repr

instance : Inhabited ElfSegment := ⟨⟨0, 0, 0, 0, 0, [], ⟨false, false, false⟩⟩⟩

/-- Model of `ElfSegment::new` (`load_elf.rs`). -/
def ElfSegment.new (hdr : Elf64Phdr) (data : List Nat) : ElfSegment where
  virt_addr := hdr.vaddr
  memsize   := hdr.memsz
  filesize  := hdr.filesz
  alignment := hdr.align
  data      := data
  offset    := hdr.offset
  prot      := get_prot_flags_from_progam_flags hdr.pflags

/-- Model of `ElfType` (`parse_elf.rs`). -/
inductive ElfType
  | ElfExec
  | ElfDyn
deriving DecidableEq, Repr

/-- Model of `ElfType::from` on an `etype` already verified to be 2 or 3. -/
def ElfType.from (etype : Nat) : ElfType :=
  if etype = 2 then .ElfExec else .ElfDyn

/-- Model of `LoadInfo` (`parse_elf.rs`).  The interpreter path is kept as its byte
list (the Rust code stores the `String` decoded from those bytes). -/
structure LoadInfo where
  entry_point : Nat
  pheader_off : Nat
  pheader_num : Nat
  segments    : List ElfSegment
  elf_interp  : Option (List Nat)
  etype       : ElfType
deriving DecidableEq, Repr

/-! ## The parser (`parse_elf.rs`)

`ElfHdr::parse` + `ElfHdr::verify` + `ElfHdr::parse_segments`, glued by
`parse_elf`.  Aborts (`assert!`, `expect`, arithmetic overflow/underflow,
slice-bounds panics) are `none`. -/

/-- Processing of one program header inside the `while` loop of
`ElfHdr::parse_segments`.  State is `(elf_interp, segments so far)`. -/
def stepHdr (b : List Nat) (st : Option (List Nat) × List ElfSegment)
    (h : Elf64Phdr) : Option (Option (List Nat) × List ElfSegment) :=
  if h.ptype = 1 then
    -- PT_LOAD
    let pgo := h.vaddr &&& 0xFFF
    if h.offset < pgo then none          -- usize subtraction underflow
    else
      let t := h.filesz + pgo
      if 2 ^ 64 ≤ t then none            -- usize addition overflow
      else
        let endOff := (h.offset - pgo) + t
        if 2 ^ 64 ≤ endOff then none     -- checked_add().unwrap() fails
        else if b.length ≤ endOff then none  -- assert!(end_offset < buffer.len())
        else some (st.1, st.2 ++ [ElfSegment.new h (sliceBytes b (h.offset - pgo) endOff)])
  else if h.ptype = 3 then
    -- PT_INTERP
    let e1 := h.offset + h.filesz
    if 2 ^ 64 ≤ e1 then none             -- usize addition overflow
    else if e1 = 0 then none             -- (offset + filesz) - 1 underflows
    else
      let e := e1 - 1
      if e < h.offset then none          -- slice start > end (filesz = 0)
      else if b.length < e then none     -- slice end out of bounds
      else
        let bytes := sliceBytes b h.offset e
        if utf8Valid bytes then some (some bytes, st.2)
        else none                        -- .expect("INTERP segment contains invalid filename")
  else some st

/-- The `while` loop of `ElfHdr::parse_segments` over the list of program
headers. -/
def segFold (b : List Nat) :
    List Elf64Phdr → Option (List Nat) × List ElfSegment →
    Option (Option (List Nat) × List ElfSegment)
  | [], st => some st
  | h :: hs, st => (stepHdr b st h).bind (segFold b hs)

/-- The program headers read by the loop: `pheader_num` entries of 56 bytes
starting at `program_headers`. -/
def hdrList (b : List Nat) (phoff phnum : Nat) : List Elf64Phdr :=
  (List.range phnum).map (fun i => phdrAt b (phoff + 56 * i))

/-- Model of `parse_elf` (`parse_elf.rs`), from the file contents.  `none` models an
abort of the process.  (The "file unreadable" failure happens before these
bytes exist and is outside this function.) -/
def parse_elf (b : List Nat) : Option LoadInfo :=
  -- ElfHdr::parse
  if b.length < 64 then none
  else
    -- ElfHdr::verify
    if bswap32 (readLE b 0 4) ≠ 0x7f454c46 then none
    else if byteAt b 4 ≠ 2 then none
    else if ¬(readLE b 16 2 = 2 ∨ readLE b 16 2 = 3) then none
    else if ¬(byteAt b 7 = 3 ∨ byteAt b 7 = 0) then none
    else if ¬(readLE b 18 2 = 3 ∨ readLE b 18 2 = 0x3e) then none
    else if readLE b 54 2 ≠ 56 then none
    else
      -- ElfHdr::parse_segments (phoff = program_headers, phnum = pheader_num)
      if 2 ^ 16 ≤ readLE b 56 2 * 56 then none       -- u16 multiplication overflow
      else if 2 ^ 64 ≤ readLE b 32 8 + readLE b 56 2 * 56 then none  -- checked_add().unwrap()
      else if b.length ≤ readLE b 32 8 + readLE b 56 2 * 56 then none -- assert!(max_offset < buffer.len())
      else
        match segFold b (hdrList b (readLE b 32 8) (readLE b 56 2)) (none, []) with
        | none => none
        | some st =>
            some { entry_point := readLE b 24 8
                   pheader_off := readLE b 32 8
                   pheader_num := readLE b 56 2
                   segments := st.2
                   elf_interp := st.1
                   etype := ElfType.from (readLE b 16 2) }

/-! ## The mapper (`load_elf.rs`) -/

/-- One entry of the per-segment population loop of `ElfLoad::load`:
the raw target `load_base + virt_addr`, the page-floored `memcpy`
destination, the copied bytes, the page-ceiled `mprotect` size and the
protection applied. -/
structure SegMap where
  effAddr  : Nat
  copyAddr : Nat
  copyData : List Nat
  protSize : Nat
  prot     : ProtFlags
deriving DecidableEq, Repr

/-- Result of a successful `ElfLoad::load`: the `mmap` request
(address/fixed flag/length), the address the mapping came back at, the
load base derived from it, and the per-segment actions. -/
structure LoadResult where
  mmapAddr  : Nat
  fixed     : Bool
  totalSize : Nat
  load_addr : Nat
  load_base : Nat
  segMaps   : List SegMap
deriving DecidableEq, Repr

/-- Model of `ElfLoad::get_total_mapping_size` (`load_elf.rs`).  `none` models the
panic on the empty list (`segments.len() - 1` underflows the index) and on
`usize` over/underflow of the size expression. -/
def get_total_mapping_size (segments : List ElfSegment) : Option Nat :=
  if segments.length = 0 then none
  else
    let last := segments.getD (segments.length - 1) default
    let first := segments.getD 0 default
    let s := last.virt_addr + last.memsize
    if 2 ^ 64 ≤ s then none
    else if s < first.virt_addr &&& 0xFFFFFFFFFFFFFFF0 then none
    else some (s - (first.virt_addr &&& 0xFFFFFFFFFFFFFFF0))

/-- Model of `ElfLoad::load` (`load_elf.rs`).  `mmapRet` is the kernel-chosen
address for the hint-0 (non-`MAP_FIXED`) request; a successful `MAP_FIXED`
request returns the requested address.  `none` models an abort before the
`mmap` call (out-of-bounds `segments[0]`, `segments.len() - 1` underflow,
`usize` over/underflow). -/
def ElfLoad.load (load_info : LoadInfo) (mmapRet : Nat) : Option LoadResult :=
  let segments := load_info.segments
  -- mmap_addr selection: MAP_FIXED at segments[0].virt_addr - segments[0].offset
  -- for ET_EXEC, hint 0 without MAP_FIXED for ET_DYN
  match load_info.etype with
  | ElfType.ElfExec =>
      if segments.length = 0 then none          -- segments[0] out of bounds
      else
        let s0 := segments.getD 0 default
        if s0.virt_addr < s0.offset then none   -- usize subtraction underflow
        else
          let mmapAddr := s0.virt_addr - s0.offset
          match get_total_mapping_size segments with
          | none => none
          | some total =>
              let load_addr := mmapAddr        -- MAP_FIXED returns the request
              let load_base := if mmapAddr = 0 then load_addr else 0
              some { mmapAddr := mmapAddr
                     fixed := true
                     totalSize := total
                     load_addr := load_addr
                     load_base := load_base
                     segMaps := segments.map (fun seg =>
                       let addr := load_base + seg.virt_addr
                       let size := seg.filesize + (addr &&& 0xFFF)
                       { effAddr := addr
                         copyAddr := addr &&& 0xFFFFFFFFFFFFF000
                         copyData := seg.data
                         protSize := (size + 0xFFF) &&& 0xFFFFFFFFFFFFF000
                         prot := seg.prot }) }
  | ElfType.ElfDyn =>
      match get_total_mapping_size segments with
      | none => none
      | some total =>
          let load_addr := mmapRet             -- kernel-chosen address
          let load_base := load_addr           -- mmap_addr == 0 branch
          some { mmapAddr := 0
                 fixed := false
                 totalSize := total
                 load_addr := load_addr
                 load_base := load_base
                 segMaps := load_info.segments.map (fun seg =>
                   let addr := load_base + seg.virt_addr
                   let size := seg.filesize + (addr &&& 0xFFF)
                   { effAddr := addr
                     copyAddr := addr &&& 0xFFFFFFFFFFFFF000
                     copyData := seg.data
                     protSize := (size + 0xFFF) &&& 0xFFFFFFFFFFFFF000
                     prot := seg.prot }) }

/-! ## The stack builder (`stack_setup.rs`)

`setup_stack` is modelled as a function of: the environment (name/value
byte lists, in enumeration order), the loader's own argv (byte lists), the
16 random seed bytes, the loader's own auxv (`libc::getauxval`, as an
oracle), the victim's `LoadInfo`/load address/interpreter base, and the
address `mmap` returned for the 256 KiB stack.  The model records every
memory write the function performs: the string-region writes (downward
phase, in order) and the 8-byte slot values written upward from the final
`rsp` (`write_pointer` always advances by exactly 8, so slot `i` occupies
`[rsp + 8*i, rsp + 8*i + 8)`). -/

/-- The byte string `"x86_64"`. -/
def platformBytes : List Nat := [0x78, 0x38, 0x36, 0x5F, 0x36, 0x34]

/-- The string-copy loops: for each entry `s` (in iteration order) decrement
the cursor by `s.length + 1` and write `s` followed by a NUL there.
Returns the final cursor, the recorded addresses (in push order) and the
writes (in write order). -/
def pushStrings (sp : Nat) :
    List (List Nat) → Nat × List Nat × List (Nat × List Nat)
  | [] => (sp, [], [])
  | s :: rest =>
      let sp' := sp - (s.length + 1)
      let r := pushStrings sp' rest
      (r.1, sp' :: r.2.1, (sp', s ++ [0]) :: r.2.2)

/-- Everything `setup_stack` builds: the returned `rsp`, the `AT_RANDOM`
target, the remembered address lists, all string writes and all upward
8-byte slot writes. -/
structure StackLayout where
  rsp          : Nat
  prng         : Nat
  platformAddr : Nat
  argvAddrs    : List Nat
  envAddrs     : List Nat
  stringWrites : List (Nat × List Nat)
  slots        : List Nat
deriving DecidableEq, Repr

/-- The environment strings as formatted by the env loop:
`"name=value"` (the NUL is appended by `pushStrings`). -/
def envStrs (env : List (List Nat × List Nat)) : List (List Nat) :=
  env.map (fun nv => nv.1 ++ [0x3D] ++ nv.2)

/-- Model of `args.remove(1)`: the loader's argv without index 1 (the victim
path). -/
def retainedArgs (args : List (List Nat)) : List (List Nat) :=
  args.headD [] :: args.drop 2

/-- The initial cursor: `stack_end + 256 KiB`, 16-byte aligned
(`(sp + 15) & !15`). -/
def stackTop (stackEnd : Nat) : Nat :=
  (stackEnd + 1024 * 256 + 15) &&& 0xFFFFFFFFFFFFFFF0

/-- The env copy loop: cursor, remembered addresses, writes. -/
def envPush (env : List (List Nat × List Nat)) (stackEnd : Nat) :
    Nat × List Nat × List (Nat × List Nat) :=
  pushStrings (stackTop stackEnd) (envStrs env)

/-- The argv copy loop (iterating `retainedArgs` in reverse). -/
def argPush (env : List (List Nat × List Nat)) (args : List (List Nat))
    (stackEnd : Nat) : Nat × List Nat × List (Nat × List Nat) :=
  pushStrings (envPush env stackEnd).1 (retainedArgs args).reverse

/-- Address of the platform string: align the cursor down to 16, then
subtract `len("x86_64") + 1`. -/
def platformAddrOf (env : List (List Nat × List Nat)) (args : List (List Nat))
    (stackEnd : Nat) : Nat :=
  ((argPush env args stackEnd).1 &&& 0xFFFFFFFFFFFFFFF0) - 7

/-- Address of the 16 seed bytes (the `AT_RANDOM` target). -/
def prngOf (env : List (List Nat × List Nat)) (args : List (List Nat))
    (stackEnd : Nat) : Nat :=
  platformAddrOf env args stackEnd - 16

/-- The pointer-table reservation: `(argv.len() + 1) + (env.len() + 1) + 1` slots. -/
def pointersOf (env : List (List Nat × List Nat)) (args : List (List Nat))
    (stackEnd : Nat) : Nat :=
  ((argPush env args stackEnd).2.1.length + 1) +
    ((envPush env stackEnd).2.1.length + 1) + 1

/-- The final `rsp`: seed address minus `0x120` (aux reservation) minus
the pointer slots, aligned down to 16. -/
def rspOf (env : List (List Nat × List Nat)) (args : List (List Nat))
    (stackEnd : Nat) : Nat :=
  (prngOf env args stackEnd - 0x120 - pointersOf env args stackEnd * 8) &&&
    0xFFFFFFFFFFFFFFF0

/-- The `write_aux_val` sequence, flattened to 8-byte values in write
order. -/
def auxSlotsOf (aux : Nat → Nat) (load_info : LoadInfo)
    (load_address interp_base : Nat) (env : List (List Nat × List Nat))
    (args : List (List Nat)) (stackEnd : Nat) : List Nat :=
  [33, aux 33] ++ [16, aux 16] ++ [6, aux 6] ++ [17, aux 17] ++
  [26, aux 26] ++ [3, load_address + load_info.pheader_off] ++
  [4, 0x38] ++ [5, load_info.pheader_num] ++ [7, interp_base] ++
  [8, 0] ++
  [9, match load_info.etype with
      | ElfType.ElfExec => load_info.entry_point
      | ElfType.ElfDyn => load_address + load_info.entry_point] ++
  [11, aux 11] ++ [12, aux 12] ++ [13, aux 13] ++ [14, aux 14] ++
  [23, aux 23] ++ [25, prngOf env args stackEnd] ++
  [31, (argPush env args stackEnd).2.1.headD 0] ++ [0, 0]

/-- Model of `setup_stack` (`stack_setup.rs`).  `none` models the panic of
`args.remove(1)` when the loader has fewer than two arguments (`main`
guarantees two).  Address arithmetic follows the source: `usize` masking
with `!15` is `&&& 0xFFFFFFFFFFFFFFF0`. -/
def setup_stack (env : List (List Nat × List Nat)) (args : List (List Nat))
    (seed : List Nat) (aux : Nat → Nat) (load_info : LoadInfo)
    (load_address interp_base : Nat) (stackEnd : Nat) : Option StackLayout :=
  if args.length < 2 then none
  else some
    { rsp := rspOf env args stackEnd
      prng := prngOf env args stackEnd
      platformAddr := platformAddrOf env args stackEnd
      argvAddrs := (argPush env args stackEnd).2.1
      envAddrs := (envPush env stackEnd).2.1
      stringWrites := (envPush env stackEnd).2.2 ++ (argPush env args stackEnd).2.2 ++
        [(platformAddrOf env args stackEnd, platformBytes ++ [0]),
         (prngOf env args stackEnd, seed)]
      slots := [(argPush env args stackEnd).2.1.length] ++
        (argPush env args stackEnd).2.1.reverse ++ [0] ++
        (envPush env stackEnd).2.1 ++ [0] ++
        auxSlotsOf aux load_info load_address interp_base env args stackEnd }

/-! ## Abort conditions of the parser

`hdrAborts`/`codeAborts` restate, as standalone predicates over the raw
file bytes, exactly when the parser aborts; `specSliceTooLong`/`specAborts`
transcribe the specification's list of fatal conditions word for word.
The two are compared in the C1 theorems below. -/

/-- The per-header abort conditions of `ElfHdr::parse_segments`: a
`PT_LOAD` whose slice arithmetic under/overflows or whose slice reaches or
passes the end of the file (`assert!(end_offset < buffer.len())` is
strict), or a `PT_INTERP` whose `filesize` is 0, whose NUL-stripped slice
arithmetic overflows, whose slice passes the end of the file, or whose
contents are not valid UTF-8. -/
def hdrAborts (b : List Nat) (h : Elf64Phdr) : Prop :=
  (h.ptype = 1 ∧
    (h.offset < (h.vaddr &&& 0xFFF) ∨
     2 ^ 64 ≤ h.filesz + (h.vaddr &&& 0xFFF) ∨
     2 ^ 64 ≤ (h.offset - (h.vaddr &&& 0xFFF)) + (h.filesz + (h.vaddr &&& 0xFFF)) ∨
     b.length ≤ (h.offset - (h.vaddr &&& 0xFFF)) + (h.filesz + (h.vaddr &&& 0xFFF)))) ∨
  (h.ptype = 3 ∧
    (2 ^ 64 ≤ h.offset + h.filesz ∨
     h.filesz = 0 ∨
     b.length < h.offset + h.filesz - 1 ∨
     ¬ utf8Valid (sliceBytes b h.offset (h.offset + h.filesz - 1)) = true))

/-- All conditions under which `parse_elf` aborts, over the raw file
bytes. -/
def codeAborts (b : List Nat) : Prop :=
  b.length < 64 ∨
  bswap32 (readLE b 0 4) ≠ 0x7f454c46 ∨
  byteAt b 4 ≠ 2 ∨
  ¬(readLE b 16 2 = 2 ∨ readLE b 16 2 = 3) ∨
  ¬(byteAt b 7 = 3 ∨ byteAt b 7 = 0) ∨
  ¬(readLE b 18 2 = 3 ∨ readLE b 18 2 = 0x3e) ∨
  readLE b 54 2 ≠ 56 ∨
  2 ^ 16 ≤ readLE b 56 2 * 56 ∨
  2 ^ 64 ≤ readLE b 32 8 + readLE b 56 2 * 56 ∨
  b.length ≤ readLE b 32 8 + readLE b 56 2 * 56 ∨
  ∃ h ∈ hdrList b (readLE b 32 8) (readLE b 56 2), hdrAborts b h

/-- The specification's condition "some `PT_LOAD` segment's file-backed
slice (`[offset − page_off, offset − page_off + filesize + page_off)`)
extends past the end of the file", transcribed literally. -/
def specSliceTooLong (b : List Nat) (h : Elf64Phdr) : Prop :=
  h.ptype = 1 ∧
    b.length < (h.offset - (h.vaddr &&& 0xFFF)) + (h.filesz + (h.vaddr &&& 0xFFF))

/-- The specification's list of fatal parse conditions (claim C1),
transcribed literally: file shorter than 64 bytes, bad magic, wrong class,
wrong type, wrong OS ABI, wrong machine, wrong `phentsize`, program-header
table extending past the end of the file, or a `PT_LOAD` slice extending
past the end of the file. -/
def specAborts (b : List Nat) : Prop :=
  b.length < 64 ∨
  ¬(byteAt b 0 = 0x7F ∧ byteAt b 1 = 0x45 ∧ byteAt b 2 = 0x4C ∧ byteAt b 3 = 0x46) ∨
  byteAt b 4 ≠ 2 ∨
  ¬(readLE b 16 2 = 2 ∨ readLE b 16 2 = 3) ∨
  ¬(byteAt b 7 = 0 ∨ byteAt b 7 = 3) ∨
  ¬(readLE b 18 2 = 3 ∨ readLE b 18 2 = 0x3E) ∨
  readLE b 54 2 ≠ 56 ∨
  b.length < readLE b 32 8 + readLE b 56 2 * 56 ∨
  ∃ h ∈ hdrList b (readLE b 32 8) (readLE b 56 2), specSliceTooLong b h

/-- Lemma: `stepHdr` aborts exactly on the per-header conditions (note the abort
does not depend on the accumulated state). -/
theorem stepHdr_eq_none_iff (b : List Nat) (st : Option (List Nat) × List ElfSegment)
    (h : Elf64Phdr) : stepHdr b st h = none ↔ hdrAborts b h := by
  unfold stepHdr hdrAborts
  by_cases h1 : h.ptype = 1
  · rw [if_pos h1]
    dsimp only
    split_ifs with g1 g2 g3 g4 <;> simp_all
  · by_cases h3 : h.ptype = 3
    · rw [if_neg h1, if_pos h3]
      dsimp only
      split_ifs with g1 g2 g3 g4 g5
      · exact iff_of_true rfl (Or.inr ⟨h3, Or.inl g1⟩)
      · exact iff_of_true rfl (Or.inr ⟨h3, Or.inr (Or.inl (by omega))⟩)
      · exact iff_of_true rfl (Or.inr ⟨h3, Or.inr (Or.inl (by omega))⟩)
      · exact iff_of_true rfl (Or.inr ⟨h3, Or.inr (Or.inr (Or.inl g4))⟩)
      · refine iff_of_false (by simp) ?_
        rintro (⟨hp, _⟩ | ⟨_, (hx | hx | hx | hx)⟩)
        · exact h1 hp
        · exact g1 hx
        · omega
        · exact g4 hx
        · exact hx g5
      · exact iff_of_true rfl (Or.inr ⟨h3, Or.inr (Or.inr (Or.inr g5))⟩)
    · simp [h1, h3]

/-- The segment loop aborts exactly when some header in the list aborts. -/
theorem segFold_eq_none_iff (b : List Nat) (hs : List Elf64Phdr) :
    ∀ st, segFold b hs st = none ↔ ∃ h ∈ hs, hdrAborts b h := by
  induction hs with
  | nil => intro st; simp [segFold]
  | cons h hs ih =>
      intro st
      cases eq : stepHdr b st h with
      | none =>
          have hab := (stepHdr_eq_none_iff b st h).mp eq
          simp [segFold, eq, hab]
      | some st' =>
          have hnab : ¬ hdrAborts b h := by
            intro hab
            have := (stepHdr_eq_none_iff b st h).mpr hab
            rw [this] at eq
            exact Option.noConfusion eq
          simp [segFold, eq, ih st', hnab]


/-- C1, amended statement, forward and backward: `parse_elf` aborts
exactly on the conditions of `codeAborts`. -/
theorem parse_elf_eq_none_iff (b : List Nat) :
    parse_elf b = none ↔ codeAborts b := by
  unfold parse_elf codeAborts
  by_cases h1 : b.length < 64
  · rw [if_pos h1]
    exact iff_of_true rfl (Or.inl h1)
  · rw [if_neg h1]
    by_cases h2 : bswap32 (readLE b 0 4) ≠ 0x7f454c46
    · rw [if_pos h2]
      exact iff_of_true rfl (Or.inr (Or.inl h2))
    · rw [if_neg h2]
      by_cases h3 : byteAt b 4 ≠ 2
      · rw [if_pos h3]
        exact iff_of_true rfl (Or.inr (Or.inr (Or.inl h3)))
      · rw [if_neg h3]
        by_cases h4 : ¬(readLE b 16 2 = 2 ∨ readLE b 16 2 = 3)
        · rw [if_pos h4]
          exact iff_of_true rfl (Or.inr (Or.inr (Or.inr (Or.inl h4))))
        · rw [if_neg h4]
          by_cases h5 : ¬(byteAt b 7 = 3 ∨ byteAt b 7 = 0)
          · rw [if_pos h5]
            exact iff_of_true rfl (Or.inr (Or.inr (Or.inr (Or.inr (Or.inl h5)))))
          · rw [if_neg h5]
            by_cases h6 : ¬(readLE b 18 2 = 3 ∨ readLE b 18 2 = 0x3e)
            · rw [if_pos h6]
              exact iff_of_true rfl (Or.inr (Or.inr (Or.inr (Or.inr (Or.inr (Or.inl h6))))))
            · rw [if_neg h6]
              by_cases h7 : readLE b 54 2 ≠ 56
              · rw [if_pos h7]
                exact iff_of_true rfl (Or.inr (Or.inr (Or.inr (Or.inr (Or.inr (Or.inr (Or.inl h7)))))))
              · rw [if_neg h7]
                by_cases h8 : 2 ^ 16 ≤ readLE b 56 2 * 56
                · rw [if_pos h8]
                  exact iff_of_true rfl (Or.inr (Or.inr (Or.inr (Or.inr (Or.inr (Or.inr (Or.inr (Or.inl h8))))))))
                · rw [if_neg h8]
                  by_cases h9 : 2 ^ 64 ≤ readLE b 32 8 + readLE b 56 2 * 56
                  · rw [if_pos h9]
                    exact iff_of_true rfl (Or.inr (Or.inr (Or.inr (Or.inr (Or.inr (Or.inr (Or.inr (Or.inr (Or.inl h9)))))))))
                  · rw [if_neg h9]
                    by_cases h10 : b.length ≤ readLE b 32 8 + readLE b 56 2 * 56
                    · rw [if_pos h10]
                      exact iff_of_true rfl (Or.inr (Or.inr (Or.inr (Or.inr (Or.inr (Or.inr (Or.inr (Or.inr (Or.inr (Or.inl h10))))))))))
                    · rw [if_neg h10]
                      cases eq : segFold b (hdrList b (readLE b 32 8) (readLE b 56 2)) (none, []) with
                      | none =>
                          exact iff_of_true rfl (Or.inr (Or.inr (Or.inr (Or.inr (Or.inr (Or.inr (Or.inr (Or.inr (Or.inr (Or.inr ((segFold_eq_none_iff b _ (none, [])).mp eq)))))))))))
                      | some st =>
                          refine iff_of_false (by simp) ?_
                          rintro (hx | hx | hx | hx | hx | hx | hx | hx | hx | hx | hx)
                          · exact h1 hx
                          · exact h2 hx
                          · exact h3 hx
                          · exact h4 hx
                          · exact h5 hx
                          · exact h6 hx
                          · exact h7 hx
                          · exact h8 hx
                          · exact h9 hx
                          · exact h10 hx
                          · have hc := (segFold_eq_none_iff b (hdrList b (readLE b 32 8) (readLE b 56 2)) (none, [])).mpr hx
                            rw [eq] at hc
                            exact Option.noConfusion hc

/-- Little-endian byte encoding of a `u16`. -/
def u16le (v : Nat) : List Nat := [v % 256, v / 256 % 256]

/-- Little-endian byte encoding of a `u32`. -/
def u32le (v : Nat) : List Nat := u16le (v % 65536) ++ u16le (v / 65536)

/-- Little-endian byte encoding of a `u64`. -/
def u64le (v : Nat) : List Nat := u32le (v % 2 ^ 32) ++ u32le (v / 2 ^ 32)

/-- A 64-byte ELF64 header (little-endian, version 1, SysV os_abi). -/
def elfHdrBytes (etype machine entry phoff phentsize phnum : Nat) : List Nat :=
  [0x7F, 0x45, 0x4C, 0x46, 2, 1, 1, 0] ++ List.replicate 8 0 ++
  u16le etype ++ u16le machine ++ u32le 1 ++ u64le entry ++ u64le phoff ++
  u64le 0 ++ u32le 0 ++ u16le 64 ++ u16le phentsize ++ u16le phnum ++
  u16le 0 ++ u16le 0 ++ u16le 0

/-- A 56-byte ELF64 program header (`paddr = 0`). -/
def phdrBytes (ptype pflags offset vaddr filesz memsz align : Nat) : List Nat :=
  u32le ptype ++ u32le pflags ++ u64le offset ++ u64le vaddr ++ u64le 0 ++
  u64le filesz ++ u64le memsz ++ u64le align

/-- A 64-byte file: valid ELF64 header (`ET_EXEC`, SysV, amd64,
`phentsize = 56`), `phnum = 0` and `phoff = 64`, so the (empty)
program-header table ends exactly at the end of the file. -/
def c1file : List Nat := elfHdrBytes 2 0x3E 0 64 56 0

/-- C1 counterexample: on `c1file` none of the specification's listed fatal
conditions holds (in particular the program-header table does not extend
*past* the end of the file — it ends exactly at it), yet `parse_elf`
aborts, because `assert!(max_offset < buffer.len())` is strict. -/
theorem c1_counterexample : parse_elf c1file = none ∧ ¬ specAborts c1file := by
  constructor
  · rfl
  · unfold specAborts specSliceTooLong
    decide

/-! ## C6: segment data extraction -/

/-- The claim's description of the segment built from an accepted `PT_LOAD`
header: its data is the file slice
`[offset − page_off, offset − page_off + filesize + page_off)` where
`page_off = vaddr & 0xFFF`. -/
def segOf (b : List Nat) (h : Elf64Phdr) : ElfSegment :=
  ElfSegment.new h (sliceBytes b (h.offset - (h.vaddr &&& 0xFFF))
    ((h.offset - (h.vaddr &&& 0xFFF)) + (h.filesz + (h.vaddr &&& 0xFFF))))

/-- A successful `stepHdr` either consumed a `PT_LOAD` (appending exactly
`segOf` and having passed the in-bounds assert) or left the segment list
unchanged. -/
theorem stepHdr_some_cases (b : List Nat) (st : Option (List Nat) × List ElfSegment)
    (h : Elf64Phdr) (st' : Option (List Nat) × List ElfSegment)
    (hs : stepHdr b st h = some st') :
    (h.ptype = 1 ∧ st' = (st.1, st.2 ++ [segOf b h]) ∧
      (h.offset - (h.vaddr &&& 0xFFF)) + (h.filesz + (h.vaddr &&& 0xFFF)) < b.length) ∨
    (h.ptype ≠ 1 ∧ st'.2 = st.2) := by
  unfold stepHdr at hs
  by_cases h1 : h.ptype = 1
  · rw [if_pos h1] at hs
    dsimp only at hs
    split_ifs at hs with g1 g2 g3 g4
    refine Or.inl ⟨h1, ?_, by omega⟩
    exact (Option.some.injEq _ _).mp hs.symm |>.symm ▸ rfl
  · rw [if_neg h1] at hs
    by_cases h3 : h.ptype = 3
    · rw [if_pos h3] at hs
      dsimp only at hs
      split_ifs at hs with g1 g2 g3 g4 g5
      refine Or.inr ⟨h1, ?_⟩
      cases hs
      rfl
    · rw [if_neg h3] at hs
      cases hs
      exact Or.inr ⟨h1, rfl⟩

/-- A successful run of the segment loop appends exactly one `segOf`
segment per `PT_LOAD` header, in header order, and every such header
passed the in-bounds assert. -/
theorem segFold_some_segments (b : List Nat) :
    ∀ (hs : List Elf64Phdr) (st st' : Option (List Nat) × List ElfSegment),
      segFold b hs st = some st' →
      st'.2 = st.2 ++ (hs.filter (fun h => h.ptype == 1)).map (segOf b) ∧
      ∀ h ∈ hs.filter (fun h => h.ptype == 1),
        (h.offset - (h.vaddr &&& 0xFFF)) + (h.filesz + (h.vaddr &&& 0xFFF)) < b.length := by
  intro hs
  induction hs with
  | nil =>
      intro st st' hfold
      unfold segFold at hfold
      cases hfold
      exact ⟨by simp, by simp⟩
  | cons h t ih =>
      intro st st' hfold
      unfold segFold at hfold
      cases eq : stepHdr b st h with
      | none => rw [eq] at hfold; exact Option.noConfusion hfold
      | some st1 =>
          rw [eq] at hfold
          rcases stepHdr_some_cases b st h st1 eq with ⟨hp1, hst1, hbound⟩ | ⟨hp1, hst1⟩
          · have hfilter : (h :: t).filter (fun h => h.ptype == 1) =
                h :: t.filter (fun h => h.ptype == 1) := by
              simp [List.filter, hp1]
            rcases ih st1 st' hfold with ⟨hseg, hball⟩
            constructor
            · rw [hfilter, hseg, hst1]
              simp
            · rw [hfilter]
              intro h' hh'
              rcases List.mem_cons.mp hh' with rfl | hmem
              · exact hbound
              · exact hball h' hmem
          · have hbf : (h.ptype == 1) = false := by
              simp only [beq_eq_false_iff_ne, ne_eq]
              exact hp1
            have hfilter : (h :: t).filter (fun h => h.ptype == 1) =
                t.filter (fun h => h.ptype == 1) := by
              simp [List.filter, hbf]
            rcases ih st1 st' hfold with ⟨hseg, hball⟩
            constructor
            · rw [hfilter, hseg, hst1]
            · rw [hfilter]
              exact hball

/-- The length of an in-bounds slice. -/
theorem sliceBytes_length (b : List Nat) (i n : Nat) (hle : i + n ≤ b.length) :
    (sliceBytes b i (i + n)).length = n := by
  simp only [sliceBytes, List.length_take, List.length_drop]
  omega

/-- C6: the segments a successful parse returns are exactly one `segOf`
per `PT_LOAD` program header, in header order — each segment's data is
the file slice `[offset − page_off, offset − page_off + filesize +
page_off)` with `page_off = vaddr & 0xFFF` — and each such data buffer
has length `filesize + page_off`. -/
theorem parse_elf_pt_load_data (b : List Nat) (info : LoadInfo)
    (hp : parse_elf b = some info) :
    info.segments = ((hdrList b (readLE b 32 8) (readLE b 56 2)).filter
      (fun h => h.ptype == 1)).map (segOf b) ∧
    ∀ h ∈ (hdrList b (readLE b 32 8) (readLE b 56 2)).filter (fun h => h.ptype == 1),
      (segOf b h).data.length = h.filesz + (h.vaddr &&& 0xFFF) := by
  unfold parse_elf at hp
  by_cases h1 : b.length < 64
  · rw [if_pos h1] at hp
    exact Option.noConfusion hp
  · rw [if_neg h1] at hp
    by_cases h2 : bswap32 (readLE b 0 4) ≠ 0x7f454c46
    · rw [if_pos h2] at hp
      exact Option.noConfusion hp
    · rw [if_neg h2] at hp
      by_cases h3 : byteAt b 4 ≠ 2
      · rw [if_pos h3] at hp
        exact Option.noConfusion hp
      · rw [if_neg h3] at hp
        by_cases h4 : ¬(readLE b 16 2 = 2 ∨ readLE b 16 2 = 3)
        · rw [if_pos h4] at hp
          exact Option.noConfusion hp
        · rw [if_neg h4] at hp
          by_cases h5 : ¬(byteAt b 7 = 3 ∨ byteAt b 7 = 0)
          · rw [if_pos h5] at hp
            exact Option.noConfusion hp
          · rw [if_neg h5] at hp
            by_cases h6 : ¬(readLE b 18 2 = 3 ∨ readLE b 18 2 = 0x3e)
            · rw [if_pos h6] at hp
              exact Option.noConfusion hp
            · rw [if_neg h6] at hp
              by_cases h7 : readLE b 54 2 ≠ 56
              · rw [if_pos h7] at hp
                exact Option.noConfusion hp
              · rw [if_neg h7] at hp
                by_cases h8 : 2 ^ 16 ≤ readLE b 56 2 * 56
                · rw [if_pos h8] at hp
                  exact Option.noConfusion hp
                · rw [if_neg h8] at hp
                  by_cases h9 : 2 ^ 64 ≤ readLE b 32 8 + readLE b 56 2 * 56
                  · rw [if_pos h9] at hp
                    exact Option.noConfusion hp
                  · rw [if_neg h9] at hp
                    by_cases h10 : b.length ≤ readLE b 32 8 + readLE b 56 2 * 56
                    · rw [if_pos h10] at hp
                      exact Option.noConfusion hp
                    · rw [if_neg h10] at hp
                      cases eq : segFold b (hdrList b (readLE b 32 8) (readLE b 56 2)) (none, []) with
                      | none =>
                          rw [eq] at hp
                          exact Option.noConfusion hp
                      | some st =>
                          rw [eq] at hp
                          obtain ⟨hseg, hball⟩ := segFold_some_segments b _ (none, []) st eq
                          cases Option.some.inj hp
                          constructor
                          · simpa using hseg
                          · intro h hmem
                            have hb := hball h hmem
                            unfold segOf ElfSegment.new
                            exact sliceBytes_length b _ _ (by omega)

/-! ## C2, C3, C10: mapper placement, reservation size, non-empty segments -/

instance : Inhabited LoadInfo := ⟨⟨0, 0, 0, [], none, ElfType.ElfExec⟩⟩

/-- C2: placement.  For `ET_EXEC`, `load` requests the mapping at
`segments[0].virt_addr − segments[0].offset` with `MAP_FIXED` and uses
load base 0, so each segment's target is its absolute `virt_addr`.  For
`ET_DYN` it requests hint 0 without `MAP_FIXED` and uses the returned
address as the load base, so each segment's target is
`load_base + virt_addr`. -/
theorem load_placement (info : LoadInfo) (r : Nat) (res : LoadResult)
    (hl : ElfLoad.load info r = some res) :
    (info.etype = ElfType.ElfExec →
      res.mmapAddr = (info.segments.getD 0 default).virt_addr -
        (info.segments.getD 0 default).offset ∧
      res.fixed = true ∧ res.load_base = 0 ∧
      res.segMaps.map SegMap.effAddr = info.segments.map (fun s => s.virt_addr)) ∧
    (info.etype = ElfType.ElfDyn →
      res.mmapAddr = 0 ∧ res.fixed = false ∧
      res.load_addr = r ∧ res.load_base = res.load_addr ∧
      res.segMaps.map SegMap.effAddr = info.segments.map (fun s => r + s.virt_addr)) := by
  unfold ElfLoad.load at hl
  cases het : info.etype with
  | ElfExec =>
      rw [het] at hl
      dsimp only at hl
      by_cases h0 : info.segments.length = 0
      · rw [if_pos h0] at hl
        exact Option.noConfusion hl
      · rw [if_neg h0] at hl
        by_cases h1 : (info.segments.getD 0 default).virt_addr <
            (info.segments.getD 0 default).offset
        · rw [if_pos h1] at hl
          exact Option.noConfusion hl
        · rw [if_neg h1] at hl
          cases eqt : get_total_mapping_size info.segments with
          | none =>
              rw [eqt] at hl
              exact Option.noConfusion hl
          | some total =>
              rw [eqt] at hl
              cases Option.some.inj hl
              constructor
              · intro _
                refine ⟨rfl, rfl, ?_, ?_⟩
                · by_cases hz : (info.segments.getD 0 default).virt_addr -
                      (info.segments.getD 0 default).offset = 0 <;> simp [hz]
                · by_cases hz : (info.segments.getD 0 default).virt_addr -
                      (info.segments.getD 0 default).offset = 0 <;>
                    simp [hz, List.map_map, Function.comp]
              · intro hdyn
                exact ElfType.noConfusion hdyn
  | ElfDyn =>
      rw [het] at hl
      dsimp only at hl
      cases eqt : get_total_mapping_size info.segments with
      | none =>
          rw [eqt] at hl
          exact Option.noConfusion hl
      | some total =>
          rw [eqt] at hl
          cases Option.some.inj hl
          constructor
          · intro hexec
            exact ElfType.noConfusion hexec
          · intro _
            exact ⟨rfl, rfl, rfl, rfl, by simp [List.map_map, Function.comp]⟩

instance : Inhabited LoadResult := ⟨⟨0, false, 0, 0, 0, []⟩⟩

/-- What a successful `get_total_mapping_size` returns. -/
theorem get_total_mapping_size_spec (segs : List ElfSegment) (t : Nat)
    (h : get_total_mapping_size segs = some t) :
    t = (segs.getD (segs.length - 1) default).virt_addr +
        (segs.getD (segs.length - 1) default).memsize -
        ((segs.getD 0 default).virt_addr &&& 0xFFFFFFFFFFFFFFF0) := by
  unfold get_total_mapping_size at h
  dsimp only at h
  split_ifs at h
  exact (Option.some.inj h).symm

/-- C3: the size of the single reservation `load` makes is
`segments[last].virt_addr + segments[last].memsize −
(segments[0].virt_addr & !15)`. -/
theorem load_total_size (info : LoadInfo) (r : Nat) (res : LoadResult)
    (hl : ElfLoad.load info r = some res) :
    res.totalSize = (info.segments.getD (info.segments.length - 1) default).virt_addr +
        (info.segments.getD (info.segments.length - 1) default).memsize -
        ((info.segments.getD 0 default).virt_addr &&& 0xFFFFFFFFFFFFFFF0) := by
  unfold ElfLoad.load at hl
  cases het : info.etype with
  | ElfExec =>
      rw [het] at hl
      dsimp only at hl
      by_cases h0 : info.segments.length = 0
      · rw [if_pos h0] at hl
        exact Option.noConfusion hl
      · rw [if_neg h0] at hl
        by_cases h1 : (info.segments.getD 0 default).virt_addr <
            (info.segments.getD 0 default).offset
        · rw [if_pos h1] at hl
          exact Option.noConfusion hl
        · rw [if_neg h1] at hl
          cases eqt : get_total_mapping_size info.segments with
          | none =>
              rw [eqt] at hl
              exact Option.noConfusion hl
          | some total =>
              rw [eqt] at hl
              cases Option.some.inj hl
              exact get_total_mapping_size_spec info.segments total eqt
  | ElfDyn =>
      rw [het] at hl
      dsimp only at hl
      cases eqt : get_total_mapping_size info.segments with
      | none =>
          rw [eqt] at hl
          exact Option.noConfusion hl
      | some total =>
          rw [eqt] at hl
          cases Option.some.inj hl
          exact get_total_mapping_size_spec info.segments total eqt

/-- C10: with zero segments the size computation and `load` abort before
any mapping exists (`segments.len() - 1` underflows the index /
`segments[0]` is out of bounds); with at least one segment the indices `0`
and `len − 1` used by `load` are in bounds. -/
theorem load_requires_segments :
    get_total_mapping_size [] = none ∧
    (∀ (info : LoadInfo) (r : Nat), info.segments = [] → ElfLoad.load info r = none) ∧
    (∀ info : LoadInfo, info.segments ≠ [] →
      0 < info.segments.length ∧ info.segments.length - 1 < info.segments.length) := by
  refine ⟨rfl, ?_, ?_⟩
  · intro info r hempty
    unfold ElfLoad.load
    cases info.etype with
    | ElfExec =>
        rw [hempty]
        rfl
    | ElfDyn =>
        rw [hempty]
        rfl
  · intro info hne
    have : info.segments.length ≠ 0 := by
      intro h
      exact hne (List.length_eq_zero.mp h)
    omega

/-! ## Concrete inputs used by the witnesses -/

/-- A single `PT_LOAD` segment at `0x400000`, r-x, 16 file-backed bytes. -/
def c2seg : ElfSegment :=
  ⟨0x400000, 0x10, 0, 0x10, 0x1000, [], ⟨true, false, true⟩⟩

/-- An `ET_EXEC` `LoadInfo` with one segment. -/
def c2exec : LoadInfo := ⟨0x401000, 64, 1, [c2seg], none, ElfType.ElfExec⟩

/-- An `ET_DYN` `LoadInfo` with one segment. -/
def c2dyn : LoadInfo := ⟨0x1000, 64, 1, [c2seg], none, ElfType.ElfDyn⟩

/-- The result of loading `c2exec` (the `MAP_FIXED` request). -/
def c2execRes : LoadResult := (ElfLoad.load c2exec 0).getD default

/-- The result of loading `c2dyn` when the kernel picks
`0x7F0000000000`. -/
def c2dynRes : LoadResult := (ElfLoad.load c2dyn 0x7F0000000000).getD default

/-- A `LoadInfo` with no segments. -/
def emptyInfo : LoadInfo := ⟨0, 0, 0, [], none, ElfType.ElfDyn⟩

/-- Witness for C2: `load_placement` evaluated on one `ET_EXEC` and one
`ET_DYN` input. -/
theorem load_placement_witness :
    ((c2exec.etype = ElfType.ElfExec →
      c2execRes.mmapAddr = (c2exec.segments.getD 0 default).virt_addr -
        (c2exec.segments.getD 0 default).offset ∧
      c2execRes.fixed = true ∧ c2execRes.load_base = 0 ∧
      c2execRes.segMaps.map SegMap.effAddr = c2exec.segments.map (fun s => s.virt_addr)) ∧
     (c2exec.etype = ElfType.ElfDyn →
      c2execRes.mmapAddr = 0 ∧ c2execRes.fixed = false ∧
      c2execRes.load_addr = 0 ∧ c2execRes.load_base = c2execRes.load_addr ∧
      c2execRes.segMaps.map SegMap.effAddr = c2exec.segments.map (fun s => 0 + s.virt_addr))) ∧
    ((c2dyn.etype = ElfType.ElfExec →
      c2dynRes.mmapAddr = (c2dyn.segments.getD 0 default).virt_addr -
        (c2dyn.segments.getD 0 default).offset ∧
      c2dynRes.fixed = true ∧ c2dynRes.load_base = 0 ∧
      c2dynRes.segMaps.map SegMap.effAddr = c2dyn.segments.map (fun s => s.virt_addr)) ∧
     (c2dyn.etype = ElfType.ElfDyn →
      c2dynRes.mmapAddr = 0 ∧ c2dynRes.fixed = false ∧
      c2dynRes.load_addr = 0x7F0000000000 ∧ c2dynRes.load_base = c2dynRes.load_addr ∧
      c2dynRes.segMaps.map SegMap.effAddr =
        c2dyn.segments.map (fun s => 0x7F0000000000 + s.virt_addr))) :=
  ⟨load_placement c2exec 0 c2execRes (by rfl),
   load_placement c2dyn 0x7F0000000000 c2dynRes (by rfl)⟩

/-- Witness for C3: `load_total_size` evaluated on `c2exec`. -/
theorem load_total_size_witness :
    c2execRes.totalSize =
      (c2exec.segments.getD (c2exec.segments.length - 1) default).virt_addr +
        (c2exec.segments.getD (c2exec.segments.length - 1) default).memsize -
        ((c2exec.segments.getD 0 default).virt_addr &&& 0xFFFFFFFFFFFFFFF0) :=
  load_total_size c2exec 0 c2execRes (by rfl)

/-- Witness for C10: `load_requires_segments` evaluated on an empty and a
one-segment `LoadInfo`. -/
theorem load_requires_segments_witness :
    ElfLoad.load emptyInfo 0 = none ∧
    (0 < c2exec.segments.length ∧
      c2exec.segments.length - 1 < c2exec.segments.length) :=
  ⟨load_requires_segments.2.1 emptyInfo 0 rfl,
   load_requires_segments.2.2 c2exec (by decide)⟩

/-- A 125-byte ELF file: valid header, one `PT_LOAD` program header
(`vaddr = 0x400000`, `offset = 120`, `filesz = memsz = 4`), 4 data bytes
and one trailing byte. -/
def c6file : List Nat :=
  elfHdrBytes 2 0x3E 0 64 56 1 ++ phdrBytes 1 5 120 0x400000 4 4 0x1000 ++
    [0xAA, 0xBB, 0xCC, 0xDD, 0]

/-- The `LoadInfo` parsed from `c6file`. -/
def c6info : LoadInfo := (parse_elf c6file).getD default

set_option maxRecDepth 4000 in
/-- Witness for C6: `parse_elf_pt_load_data` evaluated on `c6file`. -/
theorem parse_elf_pt_load_data_witness :
    c6info.segments = ((hdrList c6file (readLE c6file 32 8) (readLE c6file 56 2)).filter
      (fun h => h.ptype == 1)).map (segOf c6file) ∧
    ∀ h ∈ (hdrList c6file (readLE c6file 32 8) (readLE c6file 56 2)).filter
      (fun h => h.ptype == 1),
      (segOf c6file h).data.length = h.filesz + (h.vaddr &&& 0xFFF) :=
  parse_elf_pt_load_data c6file c6info (by rfl)

/-! ## C4, C5, C7: stack layout -/

instance : Inhabited StackLayout := ⟨⟨0, 0, 0, [], [], [], []⟩⟩

/-- C4: the auxiliary vector is written as `(id, value)` pairs in exactly
the order `AT_SYSINFO_EHDR, AT_HWCAP, AT_PAGESZ, AT_CLKTCK, AT_HWCAP2,
AT_PHDR, AT_PHENT, AT_PHNUM, AT_BASE, AT_FLAGS, AT_ENTRY, AT_UID, AT_EUID,
AT_GID, AT_EGID, AT_SECURE, AT_RANDOM, AT_EXECFN`, terminated by
`(AT_NULL, 0)`, with `AT_PHDR = load_addr + pheader_off`, `AT_PHENT = 56`,
`AT_PHNUM = pheader_num`, `AT_BASE = interp_base`, `AT_FLAGS = 0` and
`AT_ENTRY` equal to `entry_point` for `ET_EXEC` and
`load_addr + entry_point` for `ET_DYN`.  The pairs follow `argc`, the argv
pointers with their 0 terminator and the envp pointers with their 0
terminator. -/
theorem setup_stack_auxv (env : List (List Nat × List Nat)) (args : List (List Nat))
    (seed : List Nat) (aux : Nat → Nat) (load_info : LoadInfo)
    (load_address interp_base stackEnd : Nat) (st : StackLayout)
    (h : setup_stack env args seed aux load_info load_address interp_base stackEnd = some st) :
    st.slots = [st.argvAddrs.length] ++ st.argvAddrs.reverse ++ [0] ++ st.envAddrs ++ [0] ++
      [33, aux 33, 16, aux 16, 6, aux 6, 17, aux 17, 26, aux 26,
       3, load_address + load_info.pheader_off, 4, 56, 5, load_info.pheader_num,
       7, interp_base, 8, 0,
       9, match load_info.etype with
          | ElfType.ElfExec => load_info.entry_point
          | ElfType.ElfDyn => load_address + load_info.entry_point,
       11, aux 11, 12, aux 12, 13, aux 13, 14, aux 14, 23, aux 23,
       25, st.prng, 31, st.argvAddrs.headD 0, 0, 0] := by
  unfold setup_stack at h
  by_cases hlt : args.length < 2
  · rw [if_pos hlt] at h
    exact Option.noConfusion h
  · rw [if_neg hlt] at h
    cases Option.some.inj h
    simp [auxSlotsOf]

/-- Environment for the stack witnesses: one variable `PA=/b`. -/
def c4env : List (List Nat × List Nat) := [([80, 65], [47, 98])]

/-- Loader argv for the C4 witness: `["l", "v", "a"]`. -/
def c4args : List (List Nat) := [[108], [118], [97]]

/-- Seed bytes for the C4 witness. -/
def c4seed : List Nat := List.replicate 16 7

/-- Auxv oracle for the C4 witness. -/
def c4aux : Nat → Nat := fun i => 100 + i

/-- The stack layout built for the C4 witness (an `ET_DYN` victim). -/
def c4layout : StackLayout :=
  (setup_stack c4env c4args c4seed c4aux c2dyn 0x1000 0x2000 0).getD default

/-- Witness for C4: `setup_stack_auxv` evaluated on concrete inputs. -/
theorem setup_stack_auxv_witness :
    c4layout.slots = [c4layout.argvAddrs.length] ++ c4layout.argvAddrs.reverse ++ [0] ++
      c4layout.envAddrs ++ [0] ++
      [33, c4aux 33, 16, c4aux 16, 6, c4aux 6, 17, c4aux 17, 26, c4aux 26,
       3, 0x1000 + c2dyn.pheader_off, 4, 56, 5, c2dyn.pheader_num,
       7, 0x2000, 8, 0,
       9, match c2dyn.etype with
          | ElfType.ElfExec => c2dyn.entry_point
          | ElfType.ElfDyn => 0x1000 + c2dyn.entry_point,
       11, c4aux 11, 12, c4aux 12, 13, c4aux 13, 14, c4aux 14, 23, c4aux 23,
       25, c4layout.prng, 31, c4layout.argvAddrs.headD 0, 0, 0] :=
  setup_stack_auxv c4env c4args c4seed c4aux c2dyn 0x1000 0x2000 0 c4layout (by rfl)

/-- Loader argv for the C5 evaluation: `["l", "v"]` (no extra args, no
environment), so `argc + envc` is odd. -/
def c5args : List (List Nat) := [[108], [118]]

/-- The stack layout built in the C5 evaluation (stack mapped at 0). -/
def c5layout : StackLayout :=
  (setup_stack [] c5args (List.replicate 16 0) (fun _ => 0) emptyInfo 0 0 0).getD default

/-- C5 evaluation: the reserved region is undersized, so the upward
8-byte writes do NOT stay below the `AT_RANDOM` seed.  With one retained
argument and an empty environment the final `rsp` is `0x3FE90`, the seed
sits at `0x3FFD9`, and the 42 slot writes end at
`0x3FE90 + 8·42 = 0x3FFE0`: the last write (the second half of the
`(AT_NULL, 0)` pair) covers `[0x3FFD8, 0x3FFE0)` and overwrites the first
7 seed bytes. -/
theorem setup_stack_overruns_seed :
    setup_stack [] c5args (List.replicate 16 0) (fun _ => 0) emptyInfo 0 0 0 =
      some c5layout ∧
    c5layout.rsp = 0x3FE90 ∧ c5layout.prng = 0x3FFD9 ∧ c5layout.slots.length = 42 ∧
    c5layout.prng < c5layout.rsp + 8 * c5layout.slots.length ∧
    c5layout.rsp + 8 * (c5layout.slots.length - 1) < c5layout.prng + 16 :=
  ⟨rfl, by decide, by decide, by decide, by decide, by decide⟩

/-- Lemma: `pushStrings` records one address per string. -/
theorem pushStrings_length (l : List (List Nat)) :
    ∀ sp, (pushStrings sp l).2.1.length = l.length := by
  induction l with
  | nil => intro sp; rfl
  | cons s rest ih =>
      intro sp
      simp [pushStrings, ih]

/-- The `k`-th recorded address is where the `k`-th string (plus its NUL)
was written. -/
theorem pushStrings_mem (l : List (List Nat)) :
    ∀ sp k, k < l.length →
      ((pushStrings sp l).2.1.getD k 0, l.getD k [] ++ [0]) ∈ (pushStrings sp l).2.2 := by
  induction l with
  | nil =>
      intro sp k hk
      simp at hk
  | cons s rest ih =>
      intro sp k hk
      cases k with
      | zero => simp [pushStrings]
      | succ k =>
          have hk' : k < rest.length := by simpa using hk
          simpa [pushStrings] using Or.inr (ih (sp - (s.length + 1)) k hk')

/-- Taking `argc`, the argv pointers and their terminator from the slot
list. -/
theorem take_argv_table (n : Nat) (rev envA auxA : List Nat) (hrev : rev.length = n) :
    ([n] ++ rev ++ [0] ++ envA ++ [0] ++ auxA).take (1 + n + 1) = n :: (rev ++ [0]) := by
  have hassoc : [n] ++ rev ++ [0] ++ envA ++ [0] ++ auxA =
      ([n] ++ rev ++ [0]) ++ (envA ++ [0] ++ auxA) := by
    simp [List.append_assoc]
  rw [hassoc]
  rw [show 1 + n + 1 = ([n] ++ rev ++ [0]).length from by simp [hrev]; omega]
  rw [List.take_left]
  simp

/-- C7: the stack carries `argc = args.length − 1`; the written argv
pointer table is the `args.length − 1` remembered addresses followed by a
0 terminator; and the `k`-th written pointer is the address where the
`k`-th retained argument — the loader's own `argv[0]` for `k = 0`, the
extra arguments `args[2..]` in order for `k ≥ 1`, skipping the victim path
`args[1]` — was copied, NUL-terminated. -/
theorem setup_stack_argv (env : List (List Nat × List Nat)) (args : List (List Nat))
    (seed : List Nat) (aux : Nat → Nat) (load_info : LoadInfo)
    (load_address interp_base stackEnd : Nat) (st : StackLayout)
    (hargs : 2 ≤ args.length)
    (h : setup_stack env args seed aux load_info load_address interp_base stackEnd = some st) :
    st.slots.headD 0 = args.length - 1 ∧
    st.argvAddrs.length = args.length - 1 ∧
    st.slots.take (1 + (args.length - 1) + 1) =
      (args.length - 1) :: (st.argvAddrs.reverse ++ [0]) ∧
    ∀ k, k < args.length - 1 →
      (st.argvAddrs.reverse.getD k 0, (retainedArgs args).getD k [] ++ [0]) ∈
        st.stringWrites := by
  unfold setup_stack at h
  rw [if_neg (by omega)] at h
  cases Option.some.inj h
  have hlen : (argPush env args stackEnd).2.1.length = args.length - 1 := by
    unfold argPush
    rw [pushStrings_length]
    unfold retainedArgs
    simp only [List.length_reverse, List.length_cons, List.length_drop]
    omega
  refine ⟨?_, hlen, ?_, ?_⟩
  · simpa using hlen
  · show ([(argPush env args stackEnd).2.1.length] ++
        (argPush env args stackEnd).2.1.reverse ++ [0] ++
        (envPush env stackEnd).2.1 ++ [0] ++
        auxSlotsOf aux load_info load_address interp_base env args stackEnd).take
          (1 + (args.length - 1) + 1) = _
    rw [hlen]
    exact take_argv_table (args.length - 1) (argPush env args stackEnd).2.1.reverse
      (envPush env stackEnd).2.1
      (auxSlotsOf aux load_info load_address interp_base env args stackEnd)
      (by simp [hlen])
  · intro k hk
    have hkr : k < (retainedArgs args).length := by
      unfold retainedArgs
      simp only [List.length_cons, List.length_drop]
      omega
    have hlen2 : (argPush env args stackEnd).2.1.length = (retainedArgs args).length := by
      unfold argPush
      rw [pushStrings_length]
      simp
    have haddr : (argPush env args stackEnd).2.1.reverse.getD k 0 =
        (argPush env args stackEnd).2.1.getD ((retainedArgs args).length - 1 - k) 0 := by
      have hkk : k < (argPush env args stackEnd).2.1.reverse.length := by
        simp only [List.length_reverse, hlen2]
        omega
      have hjj : (retainedArgs args).length - 1 - k <
          (argPush env args stackEnd).2.1.length := by
        rw [hlen2]
        omega
      rw [List.getD_eq_getElem _ 0 hkk, List.getD_eq_getElem _ 0 hjj,
        List.getElem_reverse]
      congr 1
      rw [hlen2]
    have harg : (retainedArgs args).reverse.getD ((retainedArgs args).length - 1 - k) [] =
        (retainedArgs args).getD k [] := by
      have h1 : (retainedArgs args).length - 1 - k < (retainedArgs args).reverse.length := by
        simp only [List.length_reverse]
        omega
      rw [List.getD_eq_getElem _ [] h1, List.getD_eq_getElem _ [] hkr,
        List.getElem_reverse]
      congr 1
      omega
    have hmem := pushStrings_mem ((retainedArgs args).reverse)
      (envPush env stackEnd).1 ((retainedArgs args).length - 1 - k)
      (by simp only [List.length_reverse]; omega)
    rw [harg] at hmem
    show ((argPush env args stackEnd).2.1.reverse.getD k 0,
        (retainedArgs args).getD k [] ++ [0]) ∈
      (envPush env stackEnd).2.2 ++ (argPush env args stackEnd).2.2 ++ _
    rw [haddr]
    exact List.mem_append.mpr (Or.inl (List.mem_append.mpr (Or.inr hmem)))

/-- Witness for C7: `setup_stack_argv` on the loader argv
`["l", "v", "a"]` — argc 2, pointers to copies of `"l"` (the loader's
argv[0]) and `"a"` (the extra arg), the victim path `"v"` dropped. -/
theorem setup_stack_argv_witness :
    c4layout.slots.headD 0 = 2 ∧ c4layout.argvAddrs.length = 2 ∧
    c4layout.slots.take 4 = 2 :: (c4layout.argvAddrs.reverse ++ [0]) ∧
    (c4layout.argvAddrs.reverse.getD 0 0, [108, 0]) ∈ c4layout.stringWrites ∧
    (c4layout.argvAddrs.reverse.getD 1 0, [97, 0]) ∈ c4layout.stringWrites := by
  have h := setup_stack_argv c4env c4args c4seed c4aux c2dyn 0x1000 0x2000 0 c4layout
    (by decide) (by rfl)
  refine ⟨?_, ?_, ?_, ?_, ?_⟩
  · simpa [c4args] using h.1
  · simpa [c4args] using h.2.1
  · simpa [c4args] using h.2.2.1
  · simpa [c4args, retainedArgs] using h.2.2.2 0 (by decide)
  · simpa [c4args, retainedArgs] using h.2.2.2 1 (by decide)

/-! ## C8: PT_INTERP handling -/

/-- A 121-byte ELF file: valid header, one `PT_INTERP` program header with
`offset = 120` and `filesz = 0`. -/
def c8file : List Nat :=
  elfHdrBytes 2 0x3E 0 64 56 1 ++ phdrBytes 3 4 120 0 0 0 1 ++ [0]

/-- Like `c8file` but with `filesz = 3` and the bytes `"ld\0"` at offset
120. -/
def c8fileB : List Nat :=
  elfHdrBytes 2 0x3E 0 64 56 1 ++ phdrBytes 3 4 120 0 3 3 1 ++ [108, 100, 0]

set_option maxRecDepth 4000 in
/-- C8 evaluation: the parser has no `filesize ≥ 1` validation — a
`PT_INTERP` with `filesz = 0` makes `offset + filesz − 1` underflow (an
inverted slice) and the process aborts there, while for `filesz ≥ 1` the
NUL-stripped bytes `[offset, offset + filesz − 1)` are stored as the
interpreter path as the claim says. -/
theorem parse_elf_interp_eval :
    parse_elf c8file = none ∧
    (parse_elf c8fileB).map LoadInfo.elf_interp = some (some [108, 100]) :=
  ⟨rfl, rfl⟩

/-! ## C9: the trampoline (`main.rs`) -/

/-- The x86-64 general-purpose register file. -/
structure Regs where
  rax : Nat
  rbx : Nat
  rcx : Nat
  rdx : Nat
  rdi : Nat
  rsi : Nat
  rbp : Nat
  rsp : Nat
  r8  : Nat
  r9  : Nat
  r10 : Nat
  r11 : Nat
  r12 : Nat
  r13 : Nat
  r14 : Nat
  r15 : Nat
deriving DecidableEq, Repr

/-- Machine state when control reaches the entry point. -/
structure TrampolineResult where
  regs     : Regs
  pushAddr : Nat
  pushVal  : Nat
  rip      : Nat
deriving DecidableEq, Repr

/-- The inline-asm trampoline in `main` (`main.rs`): with inputs
`rax := rsp` (from `setup_stack`) and `rbx := entry_point`, it executes
`mov rsp, rax`; `push rbx`; `xor` of `rax, rbx, rcx, rdx, rdi, rsi` and
`r9` through `r15` (the listing contains no `xor` for `r8` and none for
`rbp`); then `ret`, which pops the pushed entry point into `rip`. -/
def trampoline (init : Regs) (rspVal entry : Nat) : TrampolineResult :=
  let r0 : Regs := { init with rax := rspVal, rbx := entry }
  let r1 : Regs := { r0 with rsp := r0.rax }
  let pushAddr := r1.rsp - 8
  let r2 : Regs := { r1 with rsp := pushAddr }
  let r3 : Regs := { r2 with
    rax := 0, rbx := 0, rcx := 0, rdx := 0, rdi := 0, rsi := 0,
    r9 := 0, r10 := 0, r11 := 0, r12 := 0, r13 := 0, r14 := 0, r15 := 0 }
  { regs := { r3 with rsp := r3.rsp + 8 }
    pushAddr := pushAddr
    pushVal := r1.rbx
    rip := r1.rbx }

/-- A register file with pairwise distinct non-zero values. -/
def c9init : Regs := ⟨1, 2, 3, 4, 5, 6, 7, 8, 9, 10, 11, 12, 13, 14, 15, 16⟩

/-- The trampoline run from `c9init` with `rsp = 0x3FE90` and entry
`0x401000`. -/
def c9res : TrampolineResult := trampoline c9init 0x3FE90 0x401000

/-- C9 evaluation: at the transfer of control the stack pointer holds the
builder's `rsp`, the entry point was pushed at `rsp − 8` and is the `ret`
target, and `rax, rbx, rcx, rdx, rdi, rsi, r9..r15` are zero — but `r8`
and `rbp` still hold the loader's values (`9` and `7` here), because the
trampoline contains no `xor r8, r8` and no `xor rbp, rbp`. -/
theorem trampoline_keeps_r8_rbp :
    c9res.regs.rsp = 0x3FE90 ∧ c9res.rip = 0x401000 ∧
    c9res.pushAddr = 0x3FE90 - 8 ∧ c9res.pushVal = 0x401000 ∧
    c9res.regs.rax = 0 ∧ c9res.regs.rbx = 0 ∧ c9res.regs.rcx = 0 ∧
    c9res.regs.rdx = 0 ∧ c9res.regs.rdi = 0 ∧ c9res.regs.rsi = 0 ∧
    c9res.regs.r9 = 0 ∧ c9res.regs.r10 = 0 ∧ c9res.regs.r11 = 0 ∧
    c9res.regs.r12 = 0 ∧ c9res.regs.r13 = 0 ∧ c9res.regs.r14 = 0 ∧
    c9res.regs.r15 = 0 ∧
    c9res.regs.r8 = 9 ∧ c9res.regs.rbp = 7 := by
  decide
